import Mathlib

/-
Shallow embedding of the cache facade from package `data` (cache.go and its
near-duplicate variant). The Redis client, the JSON codec and the URL parser
are external collaborators; each operation takes the collaborator's response
for the calls it may issue as an explicit argument and records the store
calls it actually issues, so that "no network call" is a provable statement.
-/

namespace Data

/-- Wraps a mathematical integer to the signed 64-bit range, matching the
overflow behavior of Go int64 arithmetic (time.Duration is an int64). -/
def wrapInt64 (n : Int) : Int := (n + 2 ^ 63) % 2 ^ 64 - 2 ^ 63

/-- Response of the store client to a get-by-key call: redis.Nil (key
absent), some other error, or a raw string value. -/
inductive GetResp where
  | redisNil : GetResp
  | errResp (msg : String) : GetResp
  | okResp (val : String) : GetResp

/-- A call issued to the remote store client. -/
inductive StoreCall where
  | getCall (key : String) : StoreCall
  | setCall (key : String) (data : List Nat) (ttl : Int) : StoreCall
  | delCall (key : String) : StoreCall
deriving DecidableEq

/-- Cache wraps a Redis client handle (optional, abstracted as a Nat
identifier) with an enabled flag and a configured TTL. -/
structure Cache where
  client : Option Nat
  enabled : Bool
  ttl : Int
deriving DecidableEq

/-- Enabled returns whether the cache is enabled: flag set and client
present (`c.enabled && c.client != nil`). -/
def Cache.Enabled (c : Cache) : Bool := c.enabled && c.client.isSome

/-- Close closes the Redis client if present, propagating the collaborator
release result; with no client it is a no-op returning no error. -/
def Cache.Close (c : Cache) (closeClient : Nat → Option String) : Option String :=
  match c.client with
  | some h => closeClient h
  | none => none

/-- Side effects of construction on the store client collaborator. -/
inductive ConnEffect where
  | opened (h : Nat) : ConnEffect
  | pinged (h : Nat) : ConnEffect
  | closed (h : Nat) : ConnEffect
deriving DecidableEq

/-- NewCache creates a new cache instance. `parseURL` stands for
redis.ParseURL (none on parse error), `newClient` for redis.NewClient, and
`ping` for the 5-second-bounded Ping (some msg on error). Every branch
returns a cache together with a nil error and the connection effects. -/
def NewCache (redisURL : String) (enabledFlag : Bool) (ttlSeconds : Int)
    (parseURL : String → Option Nat) (newClient : Nat → Nat)
    (ping : Nat → Option String) : Cache × Option String × List ConnEffect :=
  let cache : Cache := ⟨none, false, wrapInt64 (ttlSeconds * 1000000000)⟩
  if !enabledFlag || redisURL = "" then
    (cache, none, [])
  else
    match parseURL redisURL with
    | none => (cache, none, [])
    | some opt =>
      let client := newClient opt
      match ping client with
      | some _ => (cache, none, [.opened client, .pinged client, .closed client])
      | none =>
        ({ cache with client := some client, enabled := true }, none,
         [.opened client, .pinged client])

/-- Result of a Get call: the post-state, the found flag, the decoded
destination value if any, the returned error, and the store calls issued. -/
structure GetOutcome (V : Type) where
  state : Cache
  found : Bool
  dest : Option V
  err : Option String
  calls : List StoreCall
deriving DecidableEq

/-- Result of a Set or Delete call: the post-state, the returned error, and
the store calls issued. -/
structure OpOutcome where
  state : Cache
  err : Option String
  calls : List StoreCall
deriving DecidableEq

/-- Get retrieves a value from the cache. `store` is the client's
get-by-key responder, `unmarshal` the JSON decode into the caller-supplied
destination shape. -/
def Cache.Get {V : Type} (c : Cache) (key : String) (store : String → GetResp)
    (unmarshal : String → Except String V) : GetOutcome V :=
  if !c.Enabled then
    ⟨c, false, none, none, []⟩
  else
    match store key with
    | .redisNil => ⟨c, false, none, none, [.getCall key]⟩
    | .errResp _ => ⟨{ c with enabled := false }, false, none, none, [.getCall key]⟩
    | .okResp val =>
      match unmarshal val with
      | .error e => ⟨c, false, none, some ("unmarshal cache value: " ++ e), [.getCall key]⟩
      | .ok v => ⟨c, true, some v, none, [.getCall key]⟩

/-- Set stores a value in the cache. `marshal` is the JSON encoding of the
caller's value, `write` the client's set-with-expiry responder (some msg on
error). -/
def Cache.Set (c : Cache) (key : String) (marshal : Except String (List Nat))
    (write : String → List Nat → Int → Option String) : OpOutcome :=
  if !c.Enabled then
    ⟨c, none, []⟩
  else
    match marshal with
    | .error e => ⟨c, some ("marshal cache value: " ++ e), []⟩
    | .ok data =>
      match write key data c.ttl with
      | some _ => ⟨{ c with enabled := false }, none, [.setCall key data c.ttl]⟩
      | none => ⟨c, none, [.setCall key data c.ttl]⟩

/-- Delete removes a key from the cache. `del` is the client's
delete-by-key responder (some msg on error). -/
def Cache.Delete (c : Cache) (key : String) (del : String → Option String) : OpOutcome :=
  if !c.Enabled then
    ⟨c, none, []⟩
  else
    match del key with
    | some _ => ⟨{ c with enabled := false }, none, [.delCall key]⟩
    | none => ⟨c, none, [.delCall key]⟩

/-- An operation invoked on the facade, bundled with the collaborator
behavior it would observe if it issues its store call. -/
inductive Op (V : Type) where
  | getOp (key : String) (store : String → GetResp) (unmarshal : String → Except String V) : Op V
  | setOp (key : String) (marshal : Except String (List Nat))
      (write : String → List Nat → Int → Option String) : Op V
  | delOp (key : String) (del : String → Option String) : Op V

/-- Runs one operation, returning the post-state and the store calls issued. -/
def stepOp {V : Type} (c : Cache) : Op V → Cache × List StoreCall
  | .getOp key store unmarshal =>
    let r := c.Get key store unmarshal
    (r.state, r.calls)
  | .setOp key marshal write =>
    let r := c.Set key marshal write
    (r.state, r.calls)
  | .delOp key del =>
    let r := c.Delete key del
    (r.state, r.calls)

/-- Runs a sequence of operations, accumulating all store calls issued. -/
def runOps {V : Type} (c : Cache) : List (Op V) → Cache × List StoreCall
  | [] => (c, [])
  | op :: rest =>
    let s := stepOp c op
    let r := runOps s.1 rest
    (r.1, s.2 ++ r.2)

/-- Holds when running `op` from state `c` reaches the store-level failure
branch (the branch that flips the enabled flag off). -/
def observesFailure {V : Type} (c : Cache) : Op V → Bool
  | .getOp key store _ =>
    c.Enabled && (match store key with | .errResp _ => true | _ => false)
  | .setOp key marshal write =>
    c.Enabled && (match marshal with
      | .error _ => false
      | .ok data => (write key data c.ttl).isSome)
  | .delOp key del => c.Enabled && (del key).isSome

/-- Modulus of the 32-bit words used by SHA-256. -/
def w32 : Nat := 4294967296

/-- Rotates a 32-bit word right by n bits. -/
def rotr (n x : Nat) : Nat := (x / 2 ^ n + x % 2 ^ n * 2 ^ (32 - n)) % w32

/-- SHA-256 Ch function. -/
def chF (x y z : Nat) : Nat := (x &&& y) ^^^ ((x ^^^ 4294967295) &&& z)

/-- SHA-256 Maj function. -/
def maj (x y z : Nat) : Nat := (x &&& y) ^^^ (x &&& z) ^^^ (y &&& z)

/-- SHA-256 Sigma0 of the compression function. -/
def bigSigma0 (x : Nat) : Nat := rotr 2 x ^^^ rotr 13 x ^^^ rotr 22 x

/-- SHA-256 Sigma1 of the compression function. -/
def bigSigma1 (x : Nat) : Nat := rotr 6 x ^^^ rotr 11 x ^^^ rotr 25 x

/-- SHA-256 sigma0 of the message schedule. -/
def smallSigma0 (x : Nat) : Nat := rotr 7 x ^^^ rotr 18 x ^^^ x / 2 ^ 3

/-- SHA-256 sigma1 of the message schedule. -/
def smallSigma1 (x : Nat) : Nat := rotr 17 x ^^^ rotr 19 x ^^^ x / 2 ^ 10

/-- Working state of SHA-256: the eight 32-bit hash words. -/
structure Hash8 where
  a : Nat
  b : Nat
  c : Nat
  d : Nat
  e : Nat
  f : Nat
  g : Nat
  h : Nat
deriving DecidableEq

/-- One round of the SHA-256 compression function. -/
def shaRound (k w : Nat) (s : Hash8) : Hash8 :=
  let t1 := (s.h + bigSigma1 s.e + chF s.e s.f s.g + k + w) % w32
  let t2 := (bigSigma0 s.a + maj s.a s.b s.c) % w32
  ⟨(t1 + t2) % w32, s.a, s.b, s.c, (s.d + t1) % w32, s.e, s.f, s.g⟩

/-- Big-endian 32-bit words of a byte sequence. -/
def bytesToWords : List Nat → List Nat
  | a :: b :: c :: d :: rest =>
    (a * 16777216 + b * 65536 + c * 256 + d) % w32 :: bytesToWords rest
  | _ => []

/-- Extends the message schedule by one word. -/
def scheduleStep (w : List Nat) : List Nat :=
  w ++ [(smallSigma1 (w.getD (w.length - 2) 0) + w.getD (w.length - 7) 0 +
         smallSigma0 (w.getD (w.length - 15) 0) + w.getD (w.length - 16) 0) % w32]

/-- Message schedule of one 64-byte block: 16 message words extended to 64. -/
def schedule (block : List Nat) : List Nat :=
  (List.range 48).foldl (fun w _ => scheduleStep w) (bytesToWords block)

/-- SHA-256 round constants (FIPS 180-4, written in decimal). -/
def K256 : List Nat :=
  [1116352408, 1899447441, 3049323471, 3921009573, 961987163,
   1508970993, 2453635748, 2870763221, 3624381080, 310598401,
   607225278, 1426881987, 1925078388, 2162078206, 2614888103,
   3248222580, 3835390401, 4022224774, 264347078, 604807628,
   770255983, 1249150122, 1555081692, 1996064986, 2554220882,
   2821834349, 2952996808, 3210313671, 3336571891, 3584528711,
   113926993, 338241895, 666307205, 773529912, 1294757372,
   1396182291, 1695183700, 1986661051, 2177026350, 2456956037,
   2730485921, 2820302411, 3259730800, 3345764771, 3516065817,
   3600352804, 4094571909, 275423344, 430227734, 506948616,
   659060556, 883997877, 958139571, 1322822218, 1537002063,
   1747873779, 1955562222, 2024104815, 2227730452, 2361852424,
   2428436474, 2756734187, 3204031479, 3329325298]

/-- SHA-256 initial hash value (FIPS 180-4, written in decimal). -/
def initH : Hash8 :=
  ⟨1779033703, 3144134277, 1013904242, 2773480762,
   1359893119, 2600822924, 528734635, 1541459225⟩

/-- Compresses one 64-byte block into the hash state. -/
def compressBlock (s : Hash8) (block : List Nat) : Hash8 :=
  let t := (K256.zip (schedule block)).foldl (fun st kw => shaRound kw.1 kw.2 st) s
  ⟨(s.a + t.a) % w32, (s.b + t.b) % w32, (s.c + t.c) % w32, (s.d + t.d) % w32,
   (s.e + t.e) % w32, (s.f + t.f) % w32, (s.g + t.g) % w32, (s.h + t.h) % w32⟩

/-- Big-endian length-in-bits trailer of the SHA-256 padding. -/
def lengthBytes (len : Nat) : List Nat :=
  [len * 8 / 2 ^ 56 % 256, len * 8 / 2 ^ 48 % 256, len * 8 / 2 ^ 40 % 256,
   len * 8 / 2 ^ 32 % 256, len * 8 / 2 ^ 24 % 256, len * 8 / 2 ^ 16 % 256,
   len * 8 / 2 ^ 8 % 256, len * 8 % 256]

/-- Pads a message to a multiple of 64 bytes per FIPS 180-4. -/
def padTo (msg : List Nat) : List Nat :=
  msg ++ 128 :: (List.replicate ((119 - msg.length % 64) % 64) 0 ++ lengthBytes msg.length)

/-- Splits a byte sequence into 64-byte chunks. -/
def chunks64 (l : List Nat) : List (List Nat) :=
  if h : l = [] then []
  else
    have hlt : (List.drop 64 l).length < l.length := by
      rw [List.length_drop]
      have hl := List.length_pos.mpr h
      omega
    l.take 64 :: chunks64 (l.drop 64)
termination_by l.length

/-- SHA-256 hash state of a whole message. -/
def sha256Words (msg : List Nat) : Hash8 :=
  (chunks64 (padTo msg)).foldl compressBlock initH

/-- Big-endian bytes of one 32-bit word. -/
def wordBytes (w : Nat) : List Nat :=
  [w / 2 ^ 24 % 256, w / 2 ^ 16 % 256, w / 2 ^ 8 % 256, w % 256]

/-- Bytes of the final hash state, big-endian per word. -/
def hash8Bytes (s : Hash8) : List Nat :=
  wordBytes s.a ++ wordBytes s.b ++ wordBytes s.c ++ wordBytes s.d ++
  wordBytes s.e ++ wordBytes s.f ++ wordBytes s.g ++ wordBytes s.h

/-- sha256.Sum256: the 32-byte SHA-256 digest of a byte sequence. -/
def sha256 (msg : List Nat) : List Nat := hash8Bytes (sha256Words msg)

/-- Hex digit characters 0-9 and a-f, as used by hex.EncodeToString. -/
def hexDigitChar (n : Nat) : Char :=
  if n < 10 then Char.ofNat (48 + n) else Char.ofNat (87 + n)

/-- Characters of the lowercase hex encoding of a byte sequence, two
characters per byte: the high nibble then the low nibble. -/
def hexChars : List Nat → List Char
  | [] => []
  | b :: rest => hexDigitChar (b / 16) :: hexDigitChar (b % 16) :: hexChars rest

/-- hex.EncodeToString: the lowercase hex encoding of a byte sequence. -/
def hexEncodeBytes (bs : List Nat) : String := String.mk (hexChars bs)

/-- GenerateCacheKey generates a cache key from query parameters;
`marshalResult` is the JSON serialization collaborator's outcome for the
params (none when serialization fails). -/
def GenerateCacheKey (pfx : String) (marshalResult : Option (List Nat)) : String :=
  match marshalResult with
  | none => pfx ++ ":fallback"
  | some data => pfx ++ ":" ++ hexEncodeBytes (sha256 data)

/-- Decides whether a character is a lowercase hex digit. -/
def isLowerHexDigit (c : Char) : Bool :=
  (48 ≤ c.toNat && c.toNat ≤ 57) || (97 ≤ c.toNat && c.toNat ≤ 102)

namespace V2

/-- NewCache of the verbose-logging variant: the disabled-by-config and the
missing-address checks are two separate branches; the log calls have no
behavioral effect and are not modeled. -/
def NewCache (redisURL : String) (enabledFlag : Bool) (ttlSeconds : Int)
    (parseURL : String → Option Nat) (newClient : Nat → Nat)
    (ping : Nat → Option String) : Cache × Option String × List ConnEffect :=
  let cache : Cache := ⟨none, false, wrapInt64 (ttlSeconds * 1000000000)⟩
  if !enabledFlag then
    (cache, none, [])
  else if redisURL = "" then
    (cache, none, [])
  else
    match parseURL redisURL with
    | none => (cache, none, [])
    | some opt =>
      let client := newClient opt
      match ping client with
      | some _ => (cache, none, [.opened client, .pinged client, .closed client])
      | none =>
        ({ cache with client := some client, enabled := true }, none,
         [.opened client, .pinged client])

/-- Enabled of the verbose-logging variant. -/
def Enabled (c : Cache) : Bool := c.enabled && c.client.isSome

/-- Close of the verbose-logging variant. -/
def Close (c : Cache) (closeClient : Nat → Option String) : Option String :=
  match c.client with
  | some h => closeClient h
  | none => none

/-- Get of the verbose-logging variant. -/
def Get {V : Type} (c : Cache) (key : String) (store : String → GetResp)
    (unmarshal : String → Except String V) : GetOutcome V :=
  if !(Enabled c) then
    ⟨c, false, none, none, []⟩
  else
    match store key with
    | .redisNil => ⟨c, false, none, none, [.getCall key]⟩
    | .errResp _ => ⟨{ c with enabled := false }, false, none, none, [.getCall key]⟩
    | .okResp val =>
      match unmarshal val with
      | .error e => ⟨c, false, none, some ("unmarshal cache value: " ++ e), [.getCall key]⟩
      | .ok v => ⟨c, true, some v, none, [.getCall key]⟩

/-- Set of the verbose-logging variant. -/
def Set (c : Cache) (key : String) (marshal : Except String (List Nat))
    (write : String → List Nat → Int → Option String) : OpOutcome :=
  if !(Enabled c) then
    ⟨c, none, []⟩
  else
    match marshal with
    | .error e => ⟨c, some ("marshal cache value: " ++ e), []⟩
    | .ok data =>
      match write key data c.ttl with
      | some _ => ⟨{ c with enabled := false }, none, [.setCall key data c.ttl]⟩
      | none => ⟨c, none, [.setCall key data c.ttl]⟩

/-- Delete of the verbose-logging variant. -/
def Delete (c : Cache) (key : String) (del : String → Option String) : OpOutcome :=
  if !(Enabled c) then
    ⟨c, none, []⟩
  else
    match del key with
    | some _ => ⟨{ c with enabled := false }, none, [.delCall key]⟩
    | none => ⟨c, none, [.delCall key]⟩

/-- GenerateCacheKey of the verbose-logging variant. -/
def GenerateCacheKey (pfx : String) (marshalResult : Option (List Nat)) : String :=
  match marshalResult with
  | none => pfx ++ ":fallback"
  | some data => pfx ++ ":" ++ hexEncodeBytes (sha256 data)

end V2

/-- An enabled cache with a live handle, used to instantiate the theorems. -/
def sampleCache : Cache := ⟨some 0, true, 0⟩

/-- A delete operation whose store call fails. -/
def failDelOp : Op Nat := .delOp "k" (fun _ => some "connection refused")

/-- A short trail of operations run after a failure. -/
def sampleOps : List (Op Nat) :=
  [.getOp "k2" (fun _ => .okResp "v") (fun _ => .ok 0),
   .setOp "k3" (.ok [1]) (fun _ _ _ => none)]

/-- A store responder that always reports a connectivity error. -/
def errStore : String → GetResp := fun _ => .errResp "i/o timeout"

/-- A decoder for Nat destinations that always succeeds with 7. -/
def natUnmarshal : String → Except String Nat := fun _ => .ok 7

/-- A store responder that returns the raw payload for every key. -/
def okStore : String → GetResp := fun _ => .okResp "7"

/-- A disabled flag makes the effective availability false. -/
lemma enabled_false_of_flag_false {c : Cache} (h : c.enabled = false) :
    c.Enabled = false := by
  simp [Cache.Enabled, h]

/-- On an instance whose effective availability is false, every operation is
a no-op that issues no store call. -/
lemma stepOp_noop {V : Type} {c : Cache} (h : c.Enabled = false) (op : Op V) :
    stepOp c op = (c, []) := by
  cases op <;> simp [stepOp, Cache.Get, Cache.Set, Cache.Delete, h]

/-- No operation ever turns the enabled flag back on. -/
lemma stepOp_flag_monotone {V : Type} (c : Cache) (op : Op V) :
    (stepOp c op).1.enabled = true → c.enabled = true := by
  intro h
  by_contra hc
  rw [Bool.not_eq_true] at hc
  rw [stepOp_noop (enabled_false_of_flag_false hc)] at h
  rw [hc] at h
  exact Bool.false_ne_true h

/-- On an instance whose effective availability is false, a whole sequence
of operations is a no-op that issues no store call. -/
lemma runOps_noop {V : Type} {c : Cache} (h : c.Enabled = false) (ops : List (Op V)) :
    runOps c ops = (c, []) := by
  induction ops with
  | nil => rfl
  | cons op rest ih =>
    simp [runOps, stepOp_noop h, ih]

/-- An operation that reaches the store-failure branch leaves the enabled
flag off. -/
lemma stepOp_failure_disables {V : Type} {c : Cache} {op : Op V}
    (h : observesFailure c op = true) : (stepOp c op).1.enabled = false := by
  cases op with
  | getOp key store unmarshal =>
    simp only [observesFailure, Bool.and_eq_true] at h
    obtain ⟨hav, hmatch⟩ := h
    cases hst : store key <;> rw [hst] at hmatch <;> simp at hmatch
    simp [stepOp, Cache.Get, hav, hst]
  | setOp key marshal write =>
    simp only [observesFailure, Bool.and_eq_true] at h
    obtain ⟨hav, hmatch⟩ := h
    cases hm : marshal <;> rw [hm] at hmatch <;> simp at hmatch
    obtain ⟨msg, hw⟩ := Option.isSome_iff_exists.mp hmatch
    simp [stepOp, Cache.Set, hav, hm, hw]
  | delOp key del =>
    simp only [observesFailure, Bool.and_eq_true] at h
    obtain ⟨hav, hmatch⟩ := h
    obtain ⟨msg, hw⟩ := Option.isSome_iff_exists.mp hmatch
    simp [stepOp, Cache.Delete, hav, hw]

/-- Get never changes the client handle or the ttl field. -/
lemma get_state_frame {V : Type} (c : Cache) (key : String) (store : String → GetResp)
    (unmarshal : String → Except String V) :
    (c.Get key store unmarshal).state.client = c.client
    ∧ (c.Get key store unmarshal).state.ttl = c.ttl := by
  unfold Cache.Get
  split
  · exact ⟨rfl, rfl⟩
  · split
    · exact ⟨rfl, rfl⟩
    · exact ⟨rfl, rfl⟩
    · split
      · exact ⟨rfl, rfl⟩
      · exact ⟨rfl, rfl⟩

/-- Set never changes the client handle or the ttl field. -/
lemma set_state_frame (c : Cache) (key : String) (marshal : Except String (List Nat))
    (write : String → List Nat → Int → Option String) :
    (c.Set key marshal write).state.client = c.client
    ∧ (c.Set key marshal write).state.ttl = c.ttl := by
  unfold Cache.Set
  split
  · exact ⟨rfl, rfl⟩
  · split
    · exact ⟨rfl, rfl⟩
    · split
      · exact ⟨rfl, rfl⟩
      · exact ⟨rfl, rfl⟩

/-- Delete never changes the client handle or the ttl field. -/
lemma del_state_frame (c : Cache) (key : String) (del : String → Option String) :
    (c.Delete key del).state.client = c.client
    ∧ (c.Delete key del).state.ttl = c.ttl := by
  unfold Cache.Delete
  split
  · exact ⟨rfl, rfl⟩
  · split
    · exact ⟨rfl, rfl⟩
    · exact ⟨rfl, rfl⟩

/-- No operation changes the client handle or the ttl field. -/
lemma stepOp_frame {V : Type} (c : Cache) (op : Op V) :
    (stepOp c op).1.client = c.client ∧ (stepOp c op).1.ttl = c.ttl := by
  cases op with
  | getOp key store unmarshal => exact get_state_frame c key store unmarshal
  | setOp key marshal write => exact set_state_frame c key marshal write
  | delOp key del => exact del_state_frame c key del

/-- Claim C1: the availability flag is monotonic — no get/set/delete ever
turns it back on — and once an operation observes a store-level failure,
Enabled is false and every subsequent sequence of operations is a no-op
that issues no call to the store client. -/
theorem availability_monotone_quiescent {V : Type} (c : Cache) (op : Op V)
    (ops : List (Op V)) :
    ((runOps c ops).1.enabled = true → c.enabled = true)
    ∧ (observesFailure c op = true →
        (stepOp c op).1.Enabled = false
        ∧ runOps (stepOp c op).1 ops = ((stepOp c op).1, [])) := by
  constructor
  · intro h
    by_contra hc
    rw [Bool.not_eq_true] at hc
    rw [runOps_noop (enabled_false_of_flag_false hc)] at h
    rw [hc] at h
    exact Bool.false_ne_true h
  · intro h
    have he := enabled_false_of_flag_false (stepOp_failure_disables h)
    exact ⟨he, runOps_noop he ops⟩

theorem availability_monotone_quiescent_witness :
    observesFailure sampleCache failDelOp = true
    ∧ ((stepOp sampleCache failDelOp).1.Enabled = false
      ∧ runOps (stepOp sampleCache failDelOp).1 sampleOps
          = ((stepOp sampleCache failDelOp).1, [])) :=
  ⟨rfl, (availability_monotone_quiescent sampleCache failDelOp sampleOps).2 rfl⟩

/-- Claim C2: Get on an unavailable instance returns found = false with no
error and no store call; on an available instance a key-absent response
returns found = false with no error and an unchanged state, while any other
store error flips the enabled flag off and still returns found = false with
no error. -/
theorem get_unavailable_miss_error {V : Type} (c : Cache) (key : String)
    (store : String → GetResp) (unmarshal : String → Except String V) :
    (c.Enabled = false → c.Get key store unmarshal = ⟨c, false, none, none, []⟩)
    ∧ (c.Enabled = true → store key = .redisNil →
        c.Get key store unmarshal = ⟨c, false, none, none, [.getCall key]⟩)
    ∧ (c.Enabled = true → ∀ msg, store key = .errResp msg →
        c.Get key store unmarshal
          = ⟨{ c with enabled := false }, false, none, none, [.getCall key]⟩) := by
  refine ⟨fun h => ?_, fun hav hst => ?_, fun hav msg hst => ?_⟩
  · simp [Cache.Get, h]
  · simp [Cache.Get, hav, hst]
  · simp [Cache.Get, hav, hst]

theorem get_unavailable_miss_error_witness :
    Cache.Enabled sampleCache = true
    ∧ Cache.Get sampleCache "k" errStore natUnmarshal
        = ⟨{ sampleCache with enabled := false }, false, none, none, [.getCall "k"]⟩ :=
  ⟨rfl, (get_unavailable_miss_error sampleCache "k" errStore natUnmarshal).2.2
    rfl "i/o timeout" rfl⟩

/-- Claim C3: on an available instance, a serialization failure makes Set
return the wrapped marshal error without flipping the flag and without a
store call; a store write failure flips the flag off and returns no error;
a successful write issues exactly one set call carrying the serialized
bytes and the configured ttl and returns no error. -/
theorem set_serialize_write_success (c : Cache) (key : String)
    (marshal : Except String (List Nat)) (write : String → List Nat → Int → Option String)
    (hav : c.Enabled = true) :
    (∀ e, marshal = .error e →
        c.Set key marshal write = ⟨c, some ("marshal cache value: " ++ e), []⟩)
    ∧ (∀ data msg, marshal = .ok data → write key data c.ttl = some msg →
        c.Set key marshal write
          = ⟨{ c with enabled := false }, none, [.setCall key data c.ttl]⟩)
    ∧ (∀ data, marshal = .ok data → write key data c.ttl = none →
        c.Set key marshal write = ⟨c, none, [.setCall key data c.ttl]⟩) := by
  refine ⟨fun e he => ?_, fun data msg hm hw => ?_, fun data hm hw => ?_⟩
  · simp [Cache.Set, hav, he]
  · simp [Cache.Set, hav, hm, hw]
  · simp [Cache.Set, hav, hm, hw]

theorem set_serialize_write_success_witness :
    Cache.Enabled sampleCache = true
    ∧ Cache.Set sampleCache "k" (.ok [1, 2]) (fun _ _ _ => none)
        = ⟨sampleCache, none, [.setCall "k" [1, 2] sampleCache.ttl]⟩ :=
  ⟨rfl, (set_serialize_write_success sampleCache "k" (.ok [1, 2])
    (fun _ _ _ => none) rfl).2.2 [1, 2] rfl rfl⟩

/-- Claim C6: Get on an available instance whose store read succeeds
surfaces a decode failure as found = false with the wrapped unmarshal error
while leaving the state (hence the availability flag) unchanged, and on
decode success returns found = true with the decoded value and no error. -/
theorem get_unmarshal_paths {V : Type} (c : Cache) (key val : String)
    (store : String → GetResp) (unmarshal : String → Except String V)
    (hav : c.Enabled = true) (hst : store key = .okResp val) :
    (∀ e, unmarshal val = .error e →
        c.Get key store unmarshal
          = ⟨c, false, none, some ("unmarshal cache value: " ++ e), [.getCall key]⟩
        ∧ (c.Get key store unmarshal).state.Enabled = true)
    ∧ (∀ v, unmarshal val = .ok v →
        c.Get key store unmarshal = ⟨c, true, some v, none, [.getCall key]⟩) := by
  constructor
  · intro e he
    constructor
    · simp [Cache.Get, hav, hst, he]
    · simp [Cache.Get, hav, hst, he]
  · intro v hv
    simp [Cache.Get, hav, hst, hv]

theorem get_unmarshal_paths_witness :
    Cache.Enabled sampleCache = true ∧ okStore "k" = .okResp "7"
    ∧ Cache.Get sampleCache "k" okStore natUnmarshal
        = ⟨sampleCache, true, some 7, none, [.getCall "k"]⟩ :=
  ⟨rfl, rfl,
    (get_unmarshal_paths sampleCache "k" "7" okStore natUnmarshal rfl rfl).2 7 rfl⟩

/-- Claim C10: when an operation observes a store-level failure, only the
enabled flag is mutated — the client handle and the ttl are unchanged — so
Close on the failure-disabled instance behaves exactly as before and still
releases the real handle, propagating the release result. -/
theorem failure_mutates_only_flag {V : Type} (c : Cache) (op : Op V)
    (h : observesFailure c op = true) :
    (stepOp c op).1.client = c.client ∧ (stepOp c op).1.ttl = c.ttl
    ∧ (∀ closeClient : Nat → Option String,
        (stepOp c op).1.Close closeClient = c.Close closeClient)
    ∧ (∀ hnd : Nat, ∀ closeClient : Nat → Option String, c.client = some hnd →
        (stepOp c op).1.Close closeClient = closeClient hnd) := by
  have hf := stepOp_frame c op
  refine ⟨hf.1, hf.2, fun closeClient => ?_, fun hnd closeClient hcl => ?_⟩
  · unfold Cache.Close
    rw [hf.1]
  · unfold Cache.Close
    rw [hf.1, hcl]

theorem failure_mutates_only_flag_witness :
    observesFailure sampleCache failDelOp = true
    ∧ (stepOp sampleCache failDelOp).1.Close (fun _ => some "close error")
        = some "close error" :=
  ⟨rfl, (failure_mutates_only_flag sampleCache failDelOp rfl).2.2.2 0
    (fun _ => some "close error") rfl⟩

/-- Each 32-bit word contributes exactly four digest bytes. -/
lemma wordBytes_length (w : Nat) : (wordBytes w).length = 4 := rfl

/-- Every digest byte of one word is below 256. -/
lemma wordBytes_mem_lt (w : Nat) : ∀ b ∈ wordBytes w, b < 256 := by
  intro b hb
  simp only [wordBytes, List.mem_cons, List.not_mem_nil, or_false] at hb
  omega

/-- The SHA-256 digest always has 32 bytes. -/
lemma sha256_length (msg : List Nat) : (sha256 msg).length = 32 := by
  simp [sha256, hash8Bytes, wordBytes]

/-- Every byte of a SHA-256 digest is below 256. -/
lemma sha256_mem_lt (msg : List Nat) : ∀ b ∈ sha256 msg, b < 256 := by
  intro b hb
  simp only [sha256, hash8Bytes, List.mem_append] at hb
  rcases hb with ((((((h | h) | h) | h) | h) | h) | h) | h <;>
    exact wordBytes_mem_lt _ _ h

/-- Every nibble value maps to a lowercase hex digit character. -/
lemma hexDigitChar_isLowerHex : ∀ n < 16, isLowerHexDigit (hexDigitChar n) = true := by
  decide

/-- The hex encoding has two characters per byte. -/
lemma hexChars_length (bs : List Nat) : (hexChars bs).length = 2 * bs.length := by
  induction bs with
  | nil => rfl
  | cons b rest ih =>
    simp only [hexChars, List.length_cons, ih]
    omega

/-- The hex encoding of bytes below 256 uses only lowercase hex digits. -/
lemma hexChars_all_hex (bs : List Nat) (hb : ∀ b ∈ bs, b < 256) :
    (hexChars bs).all isLowerHexDigit = true := by
  induction bs with
  | nil => rfl
  | cons b rest ih =>
    have hblt : b < 256 := hb b (by simp)
    have h1 : b / 16 < 16 := by omega
    have h2 : b % 16 < 16 := Nat.mod_lt _ (by norm_num)
    simp only [hexChars, List.all_cons, hexDigitChar_isLowerHex _ h1,
      hexDigitChar_isLowerHex _ h2, Bool.true_and]
    exact ih fun x hx => hb x (by simp [hx])

/-- The length of a hex-encoded byte string is twice the byte count. -/
lemma hexEncodeBytes_length (bs : List Nat) : (hexEncodeBytes bs).length = 2 * bs.length :=
  hexChars_length bs

/-- Claim C7: key derivation has exactly two output shapes — the literal
fallback key when serialization fails, and prefix, colon and the 64
lowercase hex characters of the 32-byte SHA-256 digest of the serialized
bytes when it succeeds. -/
theorem generateCacheKey_shape (pfx : String) (marshalResult : Option (List Nat)) :
    (GenerateCacheKey pfx marshalResult = pfx ++ ":fallback"
      ∨ ∃ data, marshalResult = some data
          ∧ GenerateCacheKey pfx marshalResult = pfx ++ ":" ++ hexEncodeBytes (sha256 data))
    ∧ (marshalResult = none → GenerateCacheKey pfx marshalResult = pfx ++ ":fallback")
    ∧ (∀ data, marshalResult = some data →
        GenerateCacheKey pfx marshalResult = pfx ++ ":" ++ hexEncodeBytes (sha256 data)
        ∧ (hexEncodeBytes (sha256 data)).length = 64
        ∧ (hexEncodeBytes (sha256 data)).data.all isLowerHexDigit = true) := by
  refine ⟨?_, fun hm => ?_, fun data hm => ?_⟩
  · cases marshalResult with
    | none => exact Or.inl rfl
    | some data => exact Or.inr ⟨data, rfl, rfl⟩
  · subst hm; rfl
  · subst hm
    refine ⟨rfl, ?_, ?_⟩
    · rw [hexEncodeBytes_length, sha256_length]
    · exact hexChars_all_hex (sha256 data) (sha256_mem_lt data)

theorem generateCacheKey_shape_witness :
    GenerateCacheKey "user" (some [97, 98, 99])
        = "user" ++ ":" ++ hexEncodeBytes (sha256 [97, 98, 99])
    ∧ (hexEncodeBytes (sha256 [97, 98, 99])).length = 64
    ∧ (hexEncodeBytes (sha256 [97, 98, 99])).data.all isLowerHexDigit = true
    ∧ GenerateCacheKey "user" none = "user" ++ ":fallback" := by
  obtain ⟨he, hl, ha⟩ :=
    (generateCacheKey_shape "user" (some [97, 98, 99])).2.2 [97, 98, 99] rfl
  exact ⟨he, hl, ha, (generateCacheKey_shape "user" none).2.1 rfl⟩

/-- Claim C9: the two source variants of the component are behaviorally
equivalent — construction, Enabled, Close, Get, Set, Delete and key
derivation of the verbose-logging variant return the same results and
perform the same state transitions as the plain variant on every input and
collaborator behavior. -/
theorem variants_equivalent :
    (∀ redisURL enabledFlag ttlSeconds parseURL newClient ping,
        V2.NewCache redisURL enabledFlag ttlSeconds parseURL newClient ping
          = NewCache redisURL enabledFlag ttlSeconds parseURL newClient ping)
    ∧ (∀ c : Cache, V2.Enabled c = c.Enabled)
    ∧ (∀ (c : Cache) (closeClient : Nat → Option String),
        V2.Close c closeClient = c.Close closeClient)
    ∧ (∀ (V : Type) (c : Cache) (key : String) (store : String → GetResp)
        (unmarshal : String → Except String V),
        V2.Get c key store unmarshal = c.Get key store unmarshal)
    ∧ (∀ (c : Cache) (key : String) (marshal : Except String (List Nat))
        (write : String → List Nat → Int → Option String),
        V2.Set c key marshal write = c.Set key marshal write)
    ∧ (∀ (c : Cache) (key : String) (del : String → Option String),
        V2.Delete c key del = c.Delete key del)
    ∧ (∀ (pfx : String) (marshalResult : Option (List Nat)),
        V2.GenerateCacheKey pfx marshalResult = GenerateCacheKey pfx marshalResult) := by
  refine ⟨?_, fun c => rfl, fun c closeClient => rfl,
    fun V c key store unmarshal => rfl, fun c key marshal write => rfl,
    fun c key del => rfl, fun pfx marshalResult => rfl⟩
  intro redisURL enabledFlag ttlSeconds parseURL newClient ping
  cases enabledFlag with
  | false => rfl
  | true =>
    by_cases hu : redisURL = ""
    · subst hu; rfl
    · simp [NewCache, V2.NewCache, hu]

/-- Claim C4: construction returns a nil error on every input, and the only
way the returned instance is enabled is the full success path — enabled
flag set, non-empty address, parse success and ping success — so every
failure path yields a disabled instance with no hard error. -/
theorem newCache_no_hard_error (redisURL : String) (enabledFlag : Bool) (ttlSeconds : Int)
    (parseURL : String → Option Nat) (newClient : Nat → Nat) (ping : Nat → Option String) :
    (NewCache redisURL enabledFlag ttlSeconds parseURL newClient ping).2.1 = none
    ∧ ((NewCache redisURL enabledFlag ttlSeconds parseURL newClient ping).1.Enabled = true →
        enabledFlag = true ∧ redisURL ≠ ""
        ∧ ∃ opt, parseURL redisURL = some opt ∧ ping (newClient opt) = none) := by
  by_cases he : enabledFlag = true
  · by_cases hu : redisURL = ""
    · subst he; subst hu
      exact ⟨rfl, fun hav => absurd hav (by simp [NewCache, Cache.Enabled])⟩
    · subst he
      cases hp : parseURL redisURL with
      | none =>
        refine ⟨?_, fun hav => ?_⟩
        · simp [NewCache, hu, hp]
        · exact absurd hav (by simp [NewCache, hu, hp, Cache.Enabled])
      | some opt =>
        cases hg : ping (newClient opt) with
        | none =>
          refine ⟨?_, fun _ => ⟨rfl, hu, opt, rfl, hg⟩⟩
          simp [NewCache, hu, hp, hg]
        | some msg =>
          refine ⟨?_, fun hav => ?_⟩
          · simp [NewCache, hu, hp, hg]
          · exact absurd hav (by simp [NewCache, hu, hp, hg, Cache.Enabled])
  · rw [Bool.not_eq_true] at he
    subst he
    exact ⟨rfl, fun hav => absurd hav (by simp [NewCache, Cache.Enabled])⟩

theorem newCache_no_hard_error_witness :
    (NewCache "redis1" true 3 (fun _ => some 5) (fun o => o)
      (fun _ => some "unreachable")).2.1 = none :=
  (newCache_no_hard_error "redis1" true 3 (fun _ => some 5) (fun o => o)
    (fun _ => some "unreachable")).1

/-- Claim C5: with the enabled flag set, a non-empty address and a parsed
address, a ping failure releases the just-opened client and yields a
disabled instance with no handle, while a ping success stores the handle,
sets the flag and yields an enabled instance. -/
theorem newCache_ping_branches (redisURL : String) (ttlSeconds : Int)
    (parseURL : String → Option Nat) (newClient : Nat → Nat) (ping : Nat → Option String)
    (opt : Nat) (hu : redisURL ≠ "") (hp : parseURL redisURL = some opt) :
    (∀ msg, ping (newClient opt) = some msg →
        NewCache redisURL true ttlSeconds parseURL newClient ping
          = (⟨none, false, wrapInt64 (ttlSeconds * 1000000000)⟩, none,
             [.opened (newClient opt), .pinged (newClient opt), .closed (newClient opt)])
        ∧ (NewCache redisURL true ttlSeconds parseURL newClient ping).1.Enabled = false)
    ∧ (ping (newClient opt) = none →
        NewCache redisURL true ttlSeconds parseURL newClient ping
          = (⟨some (newClient opt), true, wrapInt64 (ttlSeconds * 1000000000)⟩, none,
             [.opened (newClient opt), .pinged (newClient opt)])
        ∧ (NewCache redisURL true ttlSeconds parseURL newClient ping).1.Enabled = true) := by
  constructor
  · intro msg hg
    have heq : NewCache redisURL true ttlSeconds parseURL newClient ping
        = (⟨none, false, wrapInt64 (ttlSeconds * 1000000000)⟩, none,
           [.opened (newClient opt), .pinged (newClient opt), .closed (newClient opt)]) := by
      simp [NewCache, hu, hp, hg]
    exact ⟨heq, by rw [heq]; rfl⟩
  · intro hg
    have heq : NewCache redisURL true ttlSeconds parseURL newClient ping
        = (⟨some (newClient opt), true, wrapInt64 (ttlSeconds * 1000000000)⟩, none,
           [.opened (newClient opt), .pinged (newClient opt)]) := by
      simp [NewCache, hu, hp, hg]
    exact ⟨heq, by rw [heq]; rfl⟩

theorem newCache_ping_branches_witness :
    ("redis2" : String) ≠ ""
    ∧ NewCache "redis2" true 1 (fun _ => some 9) (fun o => o) (fun _ => none)
        = (⟨some 9, true, wrapInt64 (1 * 1000000000)⟩, none, [.opened 9, .pinged 9])
    ∧ (NewCache "redis2" true 1 (fun _ => some 9) (fun o => o)
        (fun _ => none)).1.Enabled = true := by
  have h := newCache_ping_branches "redis2" 1 (fun _ => some 9) (fun o => o)
    (fun _ => none) 9 (by decide) rfl
  exact ⟨by decide, (h.2 rfl).1, (h.2 rfl).2⟩

/-- Claim C8: construction with the enabled flag false, or with an empty
address and the flag true, yields an instance whose effective availability
is false and which holds no connection handle, for every address, ttl and
collaborator behavior. -/
theorem create_disabled_paths (addr : String) (ttlSeconds : Int)
    (p1 : String → Option Nat) (n1 : Nat → Nat) (g1 : Nat → Option String)
    (p2 : String → Option Nat) (n2 : Nat → Nat) (g2 : Nat → Option String) :
    ((NewCache addr false ttlSeconds p1 n1 g1).1.Enabled = false
      ∧ (NewCache addr false ttlSeconds p1 n1 g1).1.client = none)
    ∧ ((NewCache "" true ttlSeconds p2 n2 g2).1.Enabled = false
      ∧ (NewCache "" true ttlSeconds p2 n2 g2).1.client = none) :=
  ⟨⟨rfl, rfl⟩, ⟨rfl, rfl⟩⟩

end Data
